import Mathlib

/-!
Verification of the DAP relay of the Ring debugger VS Code extension.

The definitions below are a shallow embedding of the session/dispatcher
module (`MockDebugSession`, file `mockDebug.ts`) of the repository.  The
runtime module (`mockRuntime.ts`) is not part of the sources; the few
pieces of it that the claims need are modelled from the specification and
marked as such.  External platform pieces (the ECMAScript `JSON.parse`
builtin, the `Handles` class of the debug-adapter library) are modelled at
the interface the relay uses.
-/

/-- JSON values, as produced by the `JSON.parse` builtin.  Numbers are
modelled exactly as rationals (every JSON numeral denotes a rational); no
claim depends on IEEE rounding of the host. -/
inductive JVal where
  | null
  | bool (b : Bool)
  | num (q : Rat)
  | str (s : String)
  | arr (elems : List JVal)
  | obj (fields : List (String × JVal))

/-- Lookup of a key in an object's field list (first binding wins; the
protocol messages relevant here never carry duplicate keys). -/
def lookupKey : List (String × JVal) → String → Option JVal
  | [], _ => none
  | (k, v) :: rest, key => if k = key then some v else lookupKey rest key

/-- JavaScript property update `o[k] = v`: replaces the binding if the key
exists, otherwise appends it. -/
def setKey : List (String × JVal) → String → JVal → List (String × JVal)
  | [], key, v => [(key, v)]
  | (k, w) :: rest, key, v =>
    if k = key then (k, v) :: rest else (k, w) :: setKey rest key v

/-- Property read `o[k]`; `undefined` (absent property, or a read on a
non-object) is `none`. -/
def JVal.getField : JVal → String → Option JVal
  | .obj fields, key => lookupKey fields key
  | _, _ => none

/-- Read a property expected to be a string (`undefined`/non-string reads
give `none`, which compares unequal to every string, as in JS). -/
def JVal.getStr (j : JVal) (key : String) : Option String :=
  match j.getField key with
  | some (.str s) => some s
  | _ => none

/-- Read a property expected to be a number. -/
def JVal.getNum (j : JVal) (key : String) : Option Rat :=
  match j.getField key with
  | some (.num q) => some q
  | _ => none

/-- JavaScript property assignment `j.k = v` (on a non-object value the
relay never performs it; modelled as the identity there). -/
def JVal.setField : JVal → String → JVal → JVal
  | .obj fields, key, v => .obj (setKey fields key v)
  | j, _, _ => j

/-! ### A model of the `JSON.parse` builtin

The relay feeds each newline-delimited line from the backend's stderr to
`JSON.parse`.  The builtin is external to the repository; it is modelled
here by a standard recursive-descent JSON parser over the character list
of the input.  `.error` models the `SyntaxError` exception the builtin
throws on malformed input. -/

/-- JSON insignificant whitespace. -/
def jsonWs (c : Char) : Bool :=
  c = ' ' || c = '\t' || c = '\n' || c = '\r'

def skipWs (cs : List Char) : List Char :=
  cs.dropWhile jsonWs

def digitVal (c : Char) : Nat := c.toNat - 48

def digitsToNat (ds : List Char) : Nat :=
  ds.foldl (fun a c => a * 10 + digitVal c) 0

/-- Decimal digit run value as a rational with its length (for fractions). -/
def fracValue (ds : List Char) : Rat :=
  (digitsToNat ds : Rat) / ((10 : Rat) ^ ds.length)

def hexDigitVal (c : Char) : Option Nat :=
  if '0' ≤ c ∧ c ≤ '9' then some (c.toNat - 48)
  else if 'a' ≤ c ∧ c ≤ 'f' then some (c.toNat - 87)
  else if 'A' ≤ c ∧ c ≤ 'F' then some (c.toNat - 55)
  else none

/-- Parse the body of a JSON string literal (after the opening quote),
returning the decoded characters and the rest of the input. -/
def parseStringBody : List Char → Except String (List Char × List Char)
  | [] => .error "Unterminated string in JSON"
  | c :: rest =>
    if c = Char.ofNat 34 then .ok ([], rest)
    else if c = '\\' then
      match rest with
      | [] => .error "Bad escape in JSON"
      | e :: rest2 =>
        if e = 'u' then
          match rest2 with
          | h1 :: h2 :: h3 :: h4 :: rest3 =>
            match hexDigitVal h1, hexDigitVal h2, hexDigitVal h3, hexDigitVal h4 with
            | some a, some b, some c2, some d =>
              match parseStringBody rest3 with
              | .ok (s, rem) =>
                .ok (Char.ofNat (((a * 16 + b) * 16 + c2) * 16 + d) :: s, rem)
              | .error msg => .error msg
            | _, _, _, _ => .error "Bad unicode escape in JSON"
          | _ => .error "Bad unicode escape in JSON"
        else
          match
            (if e = Char.ofNat 34 then some (Char.ofNat 34)
             else if e = '\\' then some '\\'
             else if e = '/' then some '/'
             else if e = 'b' then some (Char.ofNat 8)
             else if e = 'f' then some (Char.ofNat 12)
             else if e = 'n' then some '\n'
             else if e = 'r' then some '\r'
             else if e = 't' then some '\t'
             else none) with
          | some d =>
            match parseStringBody rest2 with
            | .ok (s, rem) => .ok (d :: s, rem)
            | .error msg => .error msg
          | none => .error "Bad escape in JSON"
    else
      match parseStringBody rest with
      | .ok (s, rem) => .ok (c :: s, rem)
      | .error msg => .error msg

/-- Parse a JSON number token: `-? (0 | [1-9][0-9]*) (. [0-9]+)? ([eE][+-]?[0-9]+)?`. -/
def parseNumberTok (cs : List Char) : Except String (Rat × List Char) :=
  let (neg, cs1) :=
    match cs with
    | '-' :: rest => (true, rest)
    | _ => (false, cs)
  let intDigits := cs1.takeWhile Char.isDigit
  if intDigits = [] then .error "Bad number in JSON"
  else if intDigits.length > 1 ∧ intDigits.headI = '0' then .error "Bad number in JSON"
  else
    let cs2 := cs1.drop intDigits.length
    let (fracDigits, cs3) :=
      match cs2 with
      | '.' :: rest =>
        let f := rest.takeWhile Char.isDigit
        (f, rest.drop f.length)
      | _ => ([], cs2)
    if cs2 ≠ cs3 ∧ fracDigits = [] then .error "Bad number in JSON"
    else
      let mantissa : Rat := (digitsToNat intDigits : Rat) + fracValue fracDigits
      let expStep : Except String (Int × List Char) :=
        match cs3 with
        | e :: rest =>
          if e = 'e' ∨ e = 'E' then
            let (eneg, rest2) :=
              match rest with
              | '+' :: r => (false, r)
              | '-' :: r => (true, r)
              | _ => (false, rest)
            let eDigits := rest2.takeWhile Char.isDigit
            if eDigits = [] then .error "Bad exponent in JSON"
            else
              .ok (if eneg then -(digitsToNat eDigits : Int) else (digitsToNat eDigits : Int),
                   rest2.drop eDigits.length)
          else .ok (0, cs3)
        | [] => .ok (0, cs3)
      match expStep with
      | .error msg => .error msg
      | .ok (e, cs4) =>
        let v := mantissa * (10 : Rat) ^ e
        .ok (if neg then -v else v, cs4)

mutual

/-- Recursive-descent JSON value parser (fuel-indexed; the fuel is the
input length plus one at the top, every recursive call consumes input). -/
def parseJVal : Nat → List Char → Except String (JVal × List Char)
  | 0, _ => .error "JSON nesting too deep"
  | fuel + 1, cs =>
    match skipWs cs with
    | [] => .error "Unexpected end of JSON input"
    | c :: rest =>
      if c = Char.ofNat 123 then
        match skipWs rest with
        | c2 :: rest2 =>
          if c2 = Char.ofNat 125 then .ok (.obj [], rest2)
          else
            match parseMembers fuel (c2 :: rest2) with
            | .ok (fields, rem) => .ok (.obj fields, rem)
            | .error msg => .error msg
        | [] => .error "Unterminated object in JSON"
      else if c = '[' then
        match skipWs rest with
        | c2 :: rest2 =>
          if c2 = ']' then .ok (.arr [], rest2)
          else
            match parseElems fuel (c2 :: rest2) with
            | .ok (elems, rem) => .ok (.arr elems, rem)
            | .error msg => .error msg
        | [] => .error "Unterminated array in JSON"
      else if c = Char.ofNat 34 then
        match parseStringBody rest with
        | .ok (s, rem) => .ok (.str (String.mk s), rem)
        | .error msg => .error msg
      else if c = 't' then
        match rest with
        | 'r' :: 'u' :: 'e' :: rem => .ok (.bool true, rem)
        | _ => .error "Unexpected token in JSON"
      else if c = 'f' then
        match rest with
        | 'a' :: 'l' :: 's' :: 'e' :: rem => .ok (.bool false, rem)
        | _ => .error "Unexpected token in JSON"
      else if c = 'n' then
        match rest with
        | 'u' :: 'l' :: 'l' :: rem => .ok (.null, rem)
        | _ => .error "Unexpected token in JSON"
      else if c = '-' ∨ c.isDigit then
        match parseNumberTok (c :: rest) with
        | .ok (q, rem) => .ok (.num q, rem)
        | .error msg => .error msg
      else .error "Unexpected token in JSON"

/-- Object members: `string : value (, string : value)*` followed by `}`. -/
def parseMembers : Nat → List Char → Except String (List (String × JVal) × List Char)
  | 0, _ => .error "JSON nesting too deep"
  | fuel + 1, cs =>
    match skipWs cs with
    | c :: rest =>
      if c = Char.ofNat 34 then
        match parseStringBody rest with
        | .error msg => .error msg
        | .ok (key, afterKey) =>
          match skipWs afterKey with
          | ':' :: afterColon =>
            match parseJVal fuel afterColon with
            | .error msg => .error msg
            | .ok (v, afterVal) =>
              match skipWs afterVal with
              | ',' :: afterComma =>
                match parseMembers fuel afterComma with
                | .ok (fields, rem) => .ok ((String.mk key, v) :: fields, rem)
                | .error msg => .error msg
              | c3 :: rem =>
                if c3 = Char.ofNat 125 then .ok ([(String.mk key, v)], rem)
                else .error "Expected comma or close brace in JSON"
              | [] => .error "Unterminated object in JSON"
          | _ => .error "Expected colon in JSON"
      else .error "Expected string key in JSON"
    | [] => .error "Unterminated object in JSON"

/-- Array elements: `value (, value)*` followed by `]`. -/
def parseElems : Nat → List Char → Except String (List JVal × List Char)
  | 0, _ => .error "JSON nesting too deep"
  | fuel + 1, cs =>
    match parseJVal fuel cs with
    | .error msg => .error msg
    | .ok (v, afterVal) =>
      match skipWs afterVal with
      | ',' :: afterComma =>
        match parseElems fuel afterComma with
        | .ok (elems, rem) => .ok (v :: elems, rem)
        | .error msg => .error msg
      | ']' :: rem => .ok ([v], rem)
      | _ => .error "Expected comma or close bracket in JSON"

end

/-- Model of the `JSON.parse` builtin at the interface the relay uses:
`.ok` is the parsed value, `.error` models the thrown `SyntaxError`. -/
def jsonParse (s : String) : Except String JVal :=
  match parseJVal (s.length + 1) s.data with
  | .error msg => .error msg
  | .ok (v, rem) =>
    match skipWs rem with
    | [] => .ok v
    | _ => .error "Unexpected non-whitespace after JSON"

/-! ### Messages sent to the client

`sendEvent`/`sendResponse` of the debug-adapter library are the boundary
to the client channel; each call is recorded as one `ClientMsg`.
Proxied messages carry the JSON object handed to the library (after the
relay's own `seq` rewrite); locally constructed events are recorded with
the payload the relay builds. -/
inductive ClientMsg where
  | proxiedEvent (j : JVal)
  | proxiedResponse (j : JVal)
  | outputEvent (category text : String)
  | localTerminated
  | breakpointEvent (reason : String) (id : Nat) (verified : Bool) (line : Option Int)
  | invalidatedEvent (areas : List String)
  | memoryEvent (memoryReference : String) (offset count : Nat)

/-- Rendering of a number in a JS template literal (`${q}`); exact for
integers, which is the only case the relay's messages exercise. -/
def renderRat (q : Rat) : String :=
  if q.den = 1 then toString q.num else toString q

/-- A JavaScript property read `v[k]`: on `null` (and on `undefined`,
see `jsPropReadOpt`) it throws a `TypeError`; on an object it yields the
property (or `undefined`/`none` when absent); on any other value
(primitives box, arrays carry none of the properties read here) it
yields `undefined` without throwing. -/
def jsPropRead : JVal → String → Except String (Option JVal)
  | .null, key =>
    .error ("TypeError: Cannot read properties of null (reading \x27" ++ key ++ "\x27)")
  | .obj fields, key => .ok (lookupKey fields key)
  | _, _ => .ok none

/-- A property read on a possibly-`undefined` value (e.g.
`event.body.exitCode` when `body` is absent): reading a property of
`undefined` throws. -/
def jsPropReadOpt : Option JVal → String → Except String (Option JVal)
  | none, key =>
    .error ("TypeError: Cannot read properties of undefined (reading \x27" ++ key ++ "\x27)")
  | some v, key => jsPropRead v key

mutual

/-- Rendering of a JSON-parsed value in a JS template literal (`${v}`):
numbers exactly (integral case; see `renderRat`), strings verbatim,
`null`/booleans by name, plain objects as `[object Object]`, arrays
comma-joined with `null` elements rendered empty. -/
def jsTemplate : JVal → String
  | .null => "null"
  | .bool b => if b then "true" else "false"
  | .num q => renderRat q
  | .str s => s
  | .obj _ => "[object Object]"
  | .arr es => jsTemplateElems es

/-- Comma-joined array elements for `jsTemplate`. -/
def jsTemplateElems : List JVal → String
  | [] => ""
  | [JVal.null] => ""
  | [e] => jsTemplate e
  | JVal.null :: rest => "," ++ jsTemplateElems rest
  | e :: rest => jsTemplate e ++ "," ++ jsTemplateElems rest

end

/-- `mockDebug.ts` lines 332/334: the output-event text for an `exited`
backend event, `ec` being the value read from `event.body.exitCode`. -/
def exitedText (ec : Option JVal) : String :=
  "ring process exited with code " ++
    (match ec with
     | some v => jsTemplate v
     | none => "undefined") ++ "\n"

/-- The strict comparison `event.body.exitCode !== 0`: false exactly when
the read value is the number 0. -/
def exitCodeNonzero : Option JVal → Bool
  | some (JVal.num q) => !(q == 0)
  | _ => true

/-- The `exited` arm of the dispatch (lines 324-337): the proxied event
is sent (with `seq` 0) and logged first; only then is
`event.body.exitCode` read — a read that throws when `body` is absent or
`null`, in which case the `TypeError` escapes after the proxied event was
already delivered.  Otherwise the exit-code output event and the
`TerminatedEvent` follow. -/
def exitedArm (j : JVal) : List ClientMsg × Option String :=
  match jsPropReadOpt (j.getField "body") "exitCode" with
  | .error e => ([.proxiedEvent (j.setField "seq" (.num 0))], some e)
  | .ok ec =>
    ([.proxiedEvent (j.setField "seq" (.num 0))] ++
      (if exitCodeNonzero ec then [.outputEvent "stderr" (exitedText ec)]
       else [.outputEvent "console" (exitedText ec)]) ++
      [.localTerminated], none)

/-- `MockDebugSession.handleRingRdbDapOneMessage`, after the `JSON.parse`
calls (the repeated typed re-parses of the same line all yield the same
value and are parsed once): `ringMessage.type` is read first — a read
that throws on a parsed `null` — then the if/else-if chain over the
`type` discriminator and the recognized `event`/`command` names,
overwriting `seq` with `0` on every message it proxies on to the client.
The result pairs the messages delivered to the client with the exception
escaping the handler, if any. -/
def handleOneParsed (j : JVal) : List ClientMsg × Option String :=
  match jsPropRead j "type" with
  | .error e => ([], some e)
  | .ok ty =>
    match ty with
    | some (JVal.str tys) =>
      if tys = "event" then
        if j.getStr "event" = some "terminated" then
          ([.proxiedEvent (j.setField "seq" (.num 0))], none)
        else if j.getStr "event" = some "exited" then
          exitedArm j
        else if j.getStr "event" = some "stopped" then
          ([.proxiedEvent (j.setField "seq" (.num 0))], none)
        else ([], none)
      else if tys = "response" then
        if j.getStr "command" = some "launch" then
          ([.proxiedResponse (j.setField "seq" (.num 0))], none)
        else if j.getStr "command" = some "threads" then
          ([.proxiedResponse (j.setField "seq" (.num 0))], none)
        else if j.getStr "command" = some "stackTrace" then
          ([.proxiedResponse (j.setField "seq" (.num 0))], none)
        else if j.getStr "command" = some "scopes" then
          ([.proxiedResponse (j.setField "seq" (.num 0))], none)
        else if j.getStr "command" = some "variables" then
          ([.proxiedResponse (j.setField "seq" (.num 0))], none)
        else if j.getStr "command" = some "setBreakpoints" then
          ([.proxiedResponse (j.setField "seq" (.num 0))], none)
        else if j.getStr "command" = some "continue" then
          ([.proxiedResponse (j.setField "seq" (.num 0))], none)
        else if j.getStr "command" = some "next" then
          ([.proxiedResponse (j.setField "seq" (.num 0))], none)
        else if j.getStr "command" = some "stepIn" then
          ([.proxiedResponse (j.setField "seq" (.num 0))], none)
        else if j.getStr "command" = some "stepOut" then
          ([.proxiedResponse (j.setField "seq" (.num 0))], none)
        else ([], none)
      else ([], none)
    | _ => ([], none)

/-- `handleRingRdbDapOneMessage` on the raw line: `JSON.parse` first; the
method has no try/catch, so both a parse failure and a `TypeError` from
the dispatch propagate (second component). -/
def handleRingRdbDapOneMessage (line : String) : List ClientMsg × Option String :=
  match jsonParse line with
  | .error e => ([], some e)
  | .ok j => handleOneParsed j

/-- `data.split (backslash-n)` of JavaScript on the character list:
separator-split keeping empty pieces. -/
def splitLines : List Char → List (List Char)
  | [] => [[]]
  | c :: cs =>
    if c = '\n' then [] :: splitLines cs
    else
      match splitLines cs with
      | [] => [[c]]
      | l :: ls => (c :: l) :: ls

/-- The for-loop of `handleRingRdbDapMessage`: every line of positive
length is handed to `handleRingRdbDapOneMessage`; an exception thrown
there aborts the loop and escapes (second component `some e`), messages
already sent stay sent. -/
def handleLines : List (List Char) → List ClientMsg × Option String
  | [] => ([], none)
  | l :: ls =>
    if l.length > 0 then
      match handleRingRdbDapOneMessage (String.mk l) with
      | (out, some e) => (out, some e)
      | (out, none) =>
        let (rest, err) := handleLines ls
        (out ++ rest, err)
    else handleLines ls

/-- `MockDebugSession.handleRingRdbDapMessage`: split the stderr chunk on
line feeds and process each non-empty line; the `Option String` is the
exception escaping the handler, if any. -/
def handleRingRdbDapMessage (data : String) : List ClientMsg × Option String :=
  handleLines (splitLines data.data)

/-- Rendering of `${code}` where `code` is `number | null` (the process
exit code of the `close` callback). -/
def renderExitCode : Option Int → String
  | some n => toString n
  | none => "null"

/-- The `close` listener installed by `MockDebugSession.newRdbProcess`:
an output event whose category depends on the exit code, then a
`TerminatedEvent`. -/
def onRdbProcessClose (code : Option Int) : List ClientMsg :=
  (if code ≠ some 0 then
    [ClientMsg.outputEvent "stderr" ("ring-rdb process exited with code " ++ renderExitCode code ++ "\n")]
  else
    [ClientMsg.outputEvent "console" ("ring-rdb process exited with code " ++ renderExitCode code ++ "\n")]) ++
  [ClientMsg.localTerminated]

/-- `MockDebugSession.disconnectRequest`: the body only logs to the
console; it emits no event and does not even send the response. -/
def disconnectRequestEmits : List ClientMsg := []

/-- Number of terminate signals in a batch of client messages. -/
def countTerminate (ms : List ClientMsg) : Nat :=
  ms.countP fun m =>
    match m with
    | ClientMsg.localTerminated => true
    | _ => false

/-! ### Launch gating (claim about `launchRequest`) -/

/-- The timeout, in milliseconds, passed to the configuration-done wait:
`await this._configurationDone.wait(10000)` in `launchRequest`. -/
def launchTimeoutMs : Nat := 10000

/-- The two ways `Subject.wait(timeout)` can resume: the signal arrived,
or the timeout elapsed.  `launchRequest` discards the wait's result. -/
inductive WaitOutcome where
  | signalled
  | timedOut

/-- What `launchRequest` does after the wait resumes. -/
structure LaunchEffects where
  sentToBackend : List JVal
  launchDoneNotified : Bool
  clientEvents : List ClientMsg

/-- The proxied launch request object built in `launchRequest`:
`{type: 'request', seq: response.request_seq, command: 'launch', arguments: args}`. -/
def proxiedLaunchMessage (requestSeq : Int) (arguments : JVal) : JVal :=
  JVal.obj [("type", .str "request"), ("seq", .num (requestSeq : Rat)),
            ("command", .str "launch"), ("arguments", arguments)]

/-- `MockDebugSession.launchRequest`: wait on the configuration-done
subject with `launchTimeoutMs`, then — on either outcome, the awaited
result is discarded — write the proxied launch request to the backend's
stdin, notify the launch-done subject and emit a console output event.
(`w` is the outcome of the wait; the definition does not consult it,
exactly as the source discards it.) -/
def launchRequest (requestSeq : Int) (arguments : JVal) (_w : WaitOutcome) : LaunchEffects :=
  { sentToBackend := [proxiedLaunchMessage requestSeq arguments]
    launchDoneNotified := true
    clientEvents := [ClientMsg.outputEvent "console" "start ring-rdb process success\n"] }

/-- `MockDebugSession.attachRequest`: `return this.launchRequest(response, args)`. -/
def attachRequest (requestSeq : Int) (arguments : JVal) (w : WaitOutcome) : LaunchEffects :=
  launchRequest requestSeq arguments w

/-! ### Runtime variables, the handle table, and value coercion -/

/-- A JavaScript number as far as the relay can observe it: a finite
value (kept exact as a rational; no claim depends on IEEE rounding) or an
infinity.  `NaN` never inhabits a stored value: `convertToRuntime` filters
it with `isNaN`. -/
inductive JsNum where
  | fin (q : Rat)
  | inf (neg : Bool)
  deriving DecidableEq

mutual

/-- Modelled from the spec: the `RuntimeVariable` record of the missing
`mockRuntime` module — "a name, a value that is
boolean/number/string/ordered-list-of-child-values, optional raw memory
bytes, optional nested reference" (§3, VariableHandle). -/
inductive RVar where
  | mk (name : String) (value : RVarVal) (memory : Option (List Nat)) (reference : Option Nat)

/-- Modelled from the spec: the value of a runtime variable
(`IRuntimeVariableType`): boolean, number, string, or an ordered list of
child variables. -/
inductive RVarVal where
  | bool (b : Bool)
  | num (n : JsNum)
  | str (s : String)
  | arr (children : RVarList)

/-- Child list of an array-valued variable. -/
inductive RVarList where
  | nil
  | cons (v : RVar) (vs : RVarList)

end

def RVar.name : RVar → String
  | .mk n _ _ _ => n

def RVar.value : RVar → RVarVal
  | .mk _ v _ _ => v

def RVar.memory : RVar → Option (List Nat)
  | .mk _ _ m _ => m

def RVar.reference : RVar → Option Nat
  | .mk _ _ _ r => r

def RVar.withValue : RVar → RVarVal → RVar
  | .mk n _ m r, v => .mk n v m r

def RVar.withReference : RVar → Option Nat → RVar
  | .mk n v m _, r => .mk n v m r

/-- `container.value.find(v => v.name === args.name)`: first child with
the given name. -/
def RVarList.findByName : RVarList → String → Option RVar
  | .nil, _ => none
  | .cons v vs, nm => if v.name = nm then some v else RVarList.findByName vs nm

/-- Replace (the first) child with the given name — the pure-state image
of the in-place mutation of the found child object. -/
def RVarList.replaceByName : RVarList → String → RVar → RVarList
  | .nil, _, _ => .nil
  | .cons v vs, nm, v' =>
    if v.name = nm then .cons v' vs else .cons v (RVarList.replaceByName vs nm v')

/-- An entry of the handle table: the scope tags or a variable. -/
inductive HandleVal where
  | locals
  | globals
  | var (v : RVar)

/-- Model of the `Handles` class of the debug-adapter library at its
interface: a counter starting at 1000 and a map from handle to value.
(The table stores the value at creation time; the claims do not depend on
object aliasing through the table.) -/
structure Handles where
  nextHandle : Nat
  entries : List (Nat × HandleVal)

def Handles.empty : Handles := ⟨1000, []⟩

/-- `Handles.create(value)`: returns the fresh handle and the grown table. -/
def Handles.create (h : Handles) (v : HandleVal) : Nat × Handles :=
  (h.nextHandle, ⟨h.nextHandle + 1, (h.nextHandle, v) :: h.entries⟩)

def lookupHandle : List (Nat × HandleVal) → Nat → Option HandleVal
  | [], _ => none
  | (k, v) :: rest, i => if k = i then some v else lookupHandle rest i

/-- `Handles.get(handle)`: `undefined` (`none`) when never created. -/
def Handles.get (h : Handles) (i : Nat) : Option HandleVal :=
  lookupHandle h.entries i

/-- Overwrite the entry for an existing handle (pure-state image of
mutating the object the handle points to). -/
def Handles.setEntry (h : Handles) (i : Nat) (v : HandleVal) : Handles :=
  ⟨h.nextHandle, h.entries.map fun p => if p.1 = i then (i, v) else p⟩

/-- The whitespace class trimmed by `String.prototype.trim` (ASCII part;
the relay's inputs are ASCII). -/
def jsWhitespace (c : Char) : Bool :=
  c = ' ' || c = '\t' || c = '\n' || c = '\r' || c = '\x0b' || c = '\x0c'

/-- `value.trim()`. -/
def jsTrim (s : String) : String :=
  ⟨((s.data.dropWhile jsWhitespace).reverse.dropWhile jsWhitespace).reverse⟩

/-- `parseFloat` of ECMAScript: longest numeric prefix of the (leading-
whitespace-stripped) input — optional sign, then `Infinity` or a decimal
literal `[0-9]* (. [0-9]*)?` with at least one digit, and an optional
exponent that is only consumed when well formed.  `none` models `NaN`. -/
def parseFloatJs (s : String) : Option JsNum :=
  let cs0 := s.data.dropWhile jsWhitespace
  let (neg, cs1) :=
    match cs0 with
    | '-' :: rest => (true, rest)
    | '+' :: rest => (false, rest)
    | _ => (false, cs0)
  if "Infinity".data.isPrefixOf cs1 then some (.inf neg)
  else
    let intD := cs1.takeWhile Char.isDigit
    let cs2 := cs1.drop intD.length
    let (fracD, cs3) :=
      match cs2 with
      | '.' :: rest =>
        let f := rest.takeWhile Char.isDigit
        (f, rest.drop f.length)
      | _ => ([], cs2)
    if intD = [] ∧ fracD = [] then none
    else
      let e : Int :=
        match cs3 with
        | c :: rest =>
          if c = 'e' ∨ c = 'E' then
            let (eneg, rest2) :=
              match rest with
              | '+' :: r => (false, r)
              | '-' :: r => (true, r)
              | _ => (false, rest)
            let eDigits := rest2.takeWhile Char.isDigit
            if eDigits = [] then 0
            else if eneg then -(digitsToNat eDigits : Int) else (digitsToNat eDigits : Int)
          else 0
        | [] => 0
      let mantissa : Rat := (digitsToNat intD : Rat) + fracValue fracD
      let v := mantissa * (10 : Rat) ^ e
      some (.fin (if neg then -v else v))

/-- `value[0] === single-quote || value[0] === double-quote` (on the empty
string, `value[0]` is `undefined`, which is not a quote). -/
def headIsQuote (s : String) : Bool :=
  match s.data with
  | c :: _ => c = Char.ofNat 39 || c = Char.ofNat 34
  | [] => false

/-- `value.substr(1, value.length - 2)` (JavaScript `substr`: a negative
length is treated as 0). -/
def jsSubstrInner (s : String) : String :=
  ⟨(s.data.drop 1).take (s.data.length - 2)⟩

/-- `MockDebugSession.convertToRuntime`: trim, then the literal
`true`/`false`, then the quoted-string branch, then `parseFloat` with the
`isNaN` guard, else the raw (trimmed) string. -/
def convertToRuntime (value : String) : RVarVal :=
  let v := jsTrim value
  if v = "true" then .bool true
  else if v = "false" then .bool false
  else if headIsQuote v then .str (jsSubstrInner v)
  else
    match parseFloatJs v with
    | some n => .num n
    | none => .str v

/-- The coercion as the spec words it (§4.3/§9): an explicit tagged parse
function on the trimmed input — literal `true`/`false` gives the boolean;
a value starting with a single or double quote gives the string with its
first and last characters removed; else a value that parses as a
floating-point number gives that number; else the raw string. -/
def specCoerce (value : String) : RVarVal :=
  let v := jsTrim value
  if v = "true" then .bool true
  else if v = "false" then .bool false
  else if headIsQuote v then .str ⟨(v.data.drop 1).dropLast⟩
  else
    match parseFloatJs v with
    | some n => .num n
    | none => .str v

/-- `Math.round(x) === x`: the number is an integer (any infinity rounds
to itself). -/
def jsRoundEq : JsNum → Bool
  | .inf _ => true
  | .fin q => q.den = 1

/-- `x.toString(10)` of a JavaScript number; exact for integers and
infinities.  Non-integral finite values are rendered as an exact rational
here — the shortest-round-trip decimal rendering of the Number builtin is
not reproduced, and no claim depends on it. -/
def jsNumRender10 : JsNum → String
  | .inf neg => if neg then "-Infinity" else "Infinity"
  | .fin q => if q.den = 1 then toString q.num else toString q

/-- `x.toString(16)`: lowercase hexadecimal digits with a leading sign;
exact for integers and infinities (same caveat as `jsNumRender10` on the
non-integral branch, which the relay's integer guard never reaches). -/
def jsNumRender16 : JsNum → String
  | .inf neg => if neg then "-Infinity" else "Infinity"
  | .fin q =>
    if q.den = 1 then
      (if q.num < 0 then "-" else "") ++ String.mk (Nat.toDigits 16 q.num.natAbs)
    else toString q

/-- `MockDebugSession.formatNumber`:
`this._valuesInHex ? '0x' + x.toString(16) : x.toString(10)`. -/
def formatNumber (valuesInHex : Bool) (x : JsNum) : String :=
  if valuesInHex then "0x" ++ jsNumRender16 x else jsNumRender10 x

/-- A breakpoint record (spec §3 `BreakpointRecord`): unique monotone id,
source line, verified flag. -/
structure BreakpointRec where
  id : Nat
  line : Int
  verified : Bool
  deriving DecidableEq

/-- The session-scoped state of `MockDebugSession` that the claims touch:
the display and capability flags, the handle table, and — modelled from
the spec, since `mockRuntime.ts` is not among the sources — the runtime's
source file, local variables and breakpoint store (`_runtime`). -/
structure SessionState where
  valuesInHex : Bool
  useInvalidatedEvent : Bool
  reportProgress : Bool
  clientLinesStartAt1 : Bool
  handles : Handles
  sourceFile : String
  locals : List RVar
  breakpoints : List BreakpointRec
  nextBpId : Nat

/-- Modelled from the spec: `MockRuntime.getLocalVariable` of the missing
`mockRuntime` module — looks up a local variable by name ("mutate the
named variable's value in place", §4.3), `undefined` when absent. -/
def getLocalVariable (locals : List RVar) (nm : String) : Option RVar :=
  locals.find? fun v => v.name == nm

/-- Replace (the first) local variable with the given name — pure-state
image of mutating the found variable object. -/
def replaceLocal : List RVar → String → RVar → List RVar
  | [], _, _ => []
  | v :: vs, nm, v' =>
    if v.name = nm then v' :: vs else v :: replaceLocal vs nm v'

/-- Modelled from the spec: `MockRuntime.setBreakPoint` of the missing
`mockRuntime` module — creates a `BreakpointRecord` at the given source
line with a monotonically assigned fresh id, initially unverified
("id (unique, monotonically assigned), source line, verified flag", §3). -/
def setBreakPoint (st : SessionState) (_path : String) (line : Int) :
    BreakpointRec × SessionState :=
  let bp : BreakpointRec := ⟨st.nextBpId, line, false⟩
  (bp, { st with breakpoints := st.breakpoints ++ [bp], nextBpId := st.nextBpId + 1 })

/-- Modelled from the spec: `MockRuntime.clearBreakPoint` — deletes the
breakpoint record at the given line, returning it when it existed
("`del <line>` to delete one", §4.3). -/
def clearBreakPoint (st : SessionState) (_path : String) (line : Int) :
    Option BreakpointRec × SessionState :=
  match st.breakpoints.find? (fun bp => bp.line == line) with
  | some bp =>
    (some bp, { st with breakpoints := st.breakpoints.filter (fun b => b.id != bp.id) })
  | none => (none, st)

/-- `MockDebugSession.customRequest`: `toggleFormatting` flips
`_valuesInHex`, emits an invalidated event when the client declared
support for it, and responds; other commands fall to the base class
(which answers with a default error response — third component false
means "not handled here"). -/
def customRequest (command : String) (st : SessionState) :
    SessionState × List ClientMsg × Bool :=
  if command = "toggleFormatting" then
    ({ st with valuesInHex := !st.valuesInHex },
     (if st.useInvalidatedEvent then [ClientMsg.invalidatedEvent ["variables"]] else []),
     true)
  else (st, [], false)

/-- The wire form of a variable (the `DebugProtocol.Variable` fields the
relay fills; `__vscodeVariableMenuContext`, a UI context-menu tag, is not
modelled). -/
structure DapVariable where
  name : String
  value : String
  type : String
  variablesReference : Nat
  evaluateName : String
  lazyHint : Bool
  memoryReference : Option String
  deriving DecidableEq

/-- `haystack.indexOf(needle) >= 0` on character lists (also the
semantics of an unanchored literal regex such as `/progress/`). -/
def containsSeq (needle : List Char) : List Char → Bool
  | [] => needle.isPrefixOf []
  | c :: cs => needle.isPrefixOf (c :: cs) || containsSeq needle cs

/-- `typeof v.value`. -/
def jsTypeof : RVarVal → String
  | .bool _ => "boolean"
  | .num _ => "number"
  | .str _ => "string"
  | .arr _ => "object"

/-- `MockDebugSession.convertFromRuntime`: renders a runtime variable for
the wire, creating handles for lazy wrappers, array children and memory
references (and writing the fresh reference back into the variable). -/
def convertFromRuntime (hexFlag : Bool) (h : Handles) (v : RVar) :
    Handles × RVar × DapVariable :=
  let dv0 : DapVariable :=
    { name := v.name, value := "???", type := jsTypeof v.value,
      variablesReference := 0, evaluateName := "$" ++ v.name,
      lazyHint := false, memoryReference := none }
  let step1 : Handles × RVar × DapVariable :=
    if containsSeq "lazy".data v.name.data then
      match v.reference with
      | some r => (h, v, { dv0 with value := "lazy var", variablesReference := r, lazyHint := true })
      | none =>
        let (r, h') := h.create (.var (RVar.mk "" (.arr (.cons (RVar.mk "" v.value none none) .nil)) none none))
        (h', v.withReference (some r),
         { dv0 with value := "lazy var", variablesReference := r, lazyHint := true })
    else
      match v.value with
      | .arr _ =>
        match v.reference with
        | some r => (h, v, { dv0 with value := "Object", variablesReference := r })
        | none =>
          let (r, h') := h.create (.var v)
          (h', v.withReference (some r), { dv0 with value := "Object", variablesReference := r })
      | .num x =>
        if jsRoundEq x then
          (h, v, { dv0 with value := formatNumber hexFlag x, type := "integer" })
        else
          (h, v, { dv0 with value := jsNumRender10 x, type := "float" })
      | .str s => (h, v, { dv0 with value := "\"" ++ s ++ "\"" })
      | .bool b => (h, v, { dv0 with value := if b then "true" else "false" })
  let (h1, v1, dv1) := step1
  if v1.memory.isSome then
    match v1.reference with
    | some r => (h1, v1, { dv1 with memoryReference := some (toString r) })
    | none =>
      let (r, h2) := h1.create (.var v1)
      (h2, v1.withReference (some r), { dv1 with memoryReference := some (toString r) })
  else (h1, v1, dv1)

/-! ### Request handlers touching the variable store -/

/-- The wire body of a `readMemory` response. -/
structure ReadMemoryBody where
  address : String
  data : List Nat
  unreadableBytes : Nat
  deriving DecidableEq

/-- `MockDebugSession.readMemoryRequest`: when the reference resolves to
a variable with a memory buffer, answer the `subarray` clamped to the
buffer (`min(offset, length)` to `min(offset + count, length)`); else a
placeholder success body (empty data, all bytes unreadable).  The byte
segment itself stands for its base64 rendering on the wire. -/
def readMemoryRequest (st : SessionState) (offset count : Nat) (memoryReference : Nat) :
    ReadMemoryBody :=
  match st.handles.get memoryReference with
  | some (HandleVal.var rv) =>
    match rv.memory with
    | some mem =>
      let lo := min offset mem.length
      let hi := min (offset + count) mem.length
      let seg := (mem.drop lo).take (hi - lo)
      { address := toString offset, data := seg, unreadableBytes := count - seg.length }
    | none => { address := toString offset, data := [], unreadableBytes := count }
  | _ => { address := toString offset, data := [], unreadableBytes := count }

/-- The memory buffer the given reference resolves to, when the entry is
a variable carrying one (the `typeof variable === 'object' &&
variable.memory` condition of the read path). -/
def memoryOf (st : SessionState) (memoryReference : Nat) : Option (List Nat) :=
  match st.handles.get memoryReference with
  | some (HandleVal.var rv) => rv.memory
  | _ => none

/-- Outcome of a set-style request: a normal response (with an optional
variable body) or a structured error response
(`sendErrorResponse(response, {id, format, variables: {lexpr}, showUser})`). -/
inductive ReqOut where
  | success (body : Option DapVariable)
  | errorResp (id : Nat) (format : String) (lexpr : String) (showUser : Bool)
  deriving DecidableEq

/-- `expression.startsWith('$')`. -/
def startsDollar (s : String) : Bool :=
  match s.data with
  | c :: _ => c = '$'
  | [] => false

/-- `MockDebugSession.setExpressionRequest`: `$`-prefixed expressions
assign the named local variable (error id 1002 when absent); anything
else is rejected with error id 1003. -/
def setExpressionRequest (st : SessionState) (expression value : String) :
    SessionState × ReqOut :=
  if startsDollar expression then
    match getLocalVariable st.locals ⟨expression.data.drop 1⟩ with
    | some rv =>
      let rv1 := rv.withValue (convertToRuntime value)
      let (h', rv2, dv) := convertFromRuntime st.valuesInHex st.handles rv1
      ({ st with handles := h', locals := replaceLocal st.locals rv.name rv2 },
       .success (some dv))
    | none =>
      (st, .errorResp 1002 "variable \x27\x7blexpr\x7d\x27 not found" expression true)
  else
    (st, .errorResp 1003 "\x27\x7blexpr\x7d\x27 not an assignable expression" expression true)

/-- The `rv` selection of `setVariableRequest`: the `locals` scope looks
the name up among the runtime's local variables; an array-valued variable
container searches its children; anything else (including `globals` and
an unknown reference) yields `undefined`. -/
def resolveSetVariable (st : SessionState) (variablesReference : Nat) (nm : String) :
    Option RVar :=
  match st.handles.get variablesReference with
  | some HandleVal.locals => getLocalVariable st.locals nm
  | some (HandleVal.var c) =>
    match c.value with
    | .arr children => children.findByName nm
    | _ => none
  | _ => none

/-- The memory event sent after a successful assignment when the variable
carries a buffer and a reference (handles start at 1000, so a present
reference is never the falsy 0). -/
def setVarMemoryEvents (rv : RVar) : List ClientMsg :=
  match rv.memory, rv.reference with
  | some mem, some r => [ClientMsg.memoryEvent (toString r) 0 mem.length]
  | _, _ => []

/-- `MockDebugSession.setVariableRequest`: resolve the container and the
named variable; when found, coerce and assign the new value, answer with
the converted variable and possibly a memory event; when not found, just
`sendResponse(response)` — a plain success with no body, no error, and no
state change. -/
def setVariableRequest (st : SessionState) (variablesReference : Nat) (nm value : String) :
    SessionState × List ClientMsg × ReqOut :=
  match st.handles.get variablesReference with
  | some HandleVal.locals =>
    match getLocalVariable st.locals nm with
    | some rv =>
      let rv1 := rv.withValue (convertToRuntime value)
      let (h', rv2, dv) := convertFromRuntime st.valuesInHex st.handles rv1
      ({ st with handles := h', locals := replaceLocal st.locals nm rv2 },
       setVarMemoryEvents rv2, .success (some dv))
    | none => (st, [], .success none)
  | some (HandleVal.var c) =>
    match c.value with
    | .arr children =>
      match children.findByName nm with
      | some rv =>
        let rv1 := rv.withValue (convertToRuntime value)
        let (h', rv2, dv) := convertFromRuntime st.valuesInHex st.handles rv1
        let c' := c.withValue (.arr (children.replaceByName nm rv2))
        ({ st with handles := (h'.setEntry variablesReference (.var c')) },
         setVarMemoryEvents rv2, .success (some dv))
      | none => (st, [], .success none)
    | _ => (st, [], .success none)
  | _ => (st, [], .success none)

/-! ### The evaluate request -/

/-- `convertClientLineToDebugger` of the debug-adapter library, with
`debuggerLinesStartAt1 = false` as set in the session constructor. -/
def convertClientLineToDebugger (clientLinesStartAt1 : Bool) (l : Int) : Int :=
  if clientLinesStartAt1 then l - 1 else l

/-- `convertDebuggerLineToClient`, same flags. -/
def convertDebuggerLineToClient (clientLinesStartAt1 : Bool) (l : Int) : Int :=
  if clientLinesStartAt1 then l + 1 else l

/-- Match of `/new +([0-9]+)/` anchored at the head of the input: the
literal `new`, one or more spaces, then the (greedy) captured digit run. -/
def matchNewAt : List Char → Option (List Char)
  | 'n' :: 'e' :: 'w' :: rest =>
    let spaces := rest.takeWhile (· = ' ')
    if spaces = [] then none
    else
      let after := rest.drop spaces.length
      let ds := after.takeWhile Char.isDigit
      if ds = [] then none else some ds
  | _ => none

/-- Match of `/del +([0-9]+)/` anchored at the head of the input. -/
def matchDelAt : List Char → Option (List Char)
  | 'd' :: 'e' :: 'l' :: rest =>
    let spaces := rest.takeWhile (· = ' ')
    if spaces = [] then none
    else
      let after := rest.drop spaces.length
      let ds := after.takeWhile Char.isDigit
      if ds = [] then none else some ds
  | _ => none

/-- `RegExp.prototype.exec` for an unanchored pattern: try the anchored
match at every position, left to right, returning the first capture. -/
def execCapture (matchAt : List Char → Option (List Char)) : List Char → Option (List Char)
  | [] => matchAt []
  | c :: cs =>
    match matchAt (c :: cs) with
    | some r => some r
    | none => execCapture matchAt cs

/-- The body of an `evaluate` response (`result`, `type`,
`variablesReference`, `presentationHint.lazy`). -/
structure EvalBody where
  result : String
  type : Option String
  variablesReference : Nat
  lazyHint : Bool
  deriving DecidableEq

/-- The default `result` text when neither a variable nor a reply was
produced: `evaluate(context: '<ctx>', '<expr>')`. -/
def defaultEvalText (context : Option String) (expression : String) : String :=
  "evaluate(context: \x27" ++ (match context with | some s => s | none => "undefined") ++
    "\x27, \x27" ++ expression ++ "\x27)"

/-- The `repl` arm of the `switch` in `evaluateRequest`: the `new`/`del`
breakpoint micro-commands and the `progress` trigger, producing a reply
string and possibly a breakpoint event.  (The simulated progress sequence
itself is an asynchronous timed task and is not part of this state model;
its kick-off does not change the session state read below.)  The arm does
not return: control falls through to the default arm. -/
def evalReplStep (st : SessionState) (context : Option String) (expression : String) :
    SessionState × List ClientMsg × Option String :=
  if context = some "repl" then
    match execCapture matchNewAt expression.data with
    | some ds =>
      let line := convertClientLineToDebugger st.clientLinesStartAt1 (Int.ofNat (digitsToNat ds))
      let (mbp, st') := setBreakPoint st st.sourceFile line
      (st', [ClientMsg.breakpointEvent "new" mbp.id mbp.verified
               (some (convertDebuggerLineToClient st'.clientLinesStartAt1 mbp.line))],
       some "breakpoint created")
    | none =>
      match execCapture matchDelAt expression.data with
      | some ds =>
        let line := convertClientLineToDebugger st.clientLinesStartAt1 (Int.ofNat (digitsToNat ds))
        match clearBreakPoint st st.sourceFile line with
        | (some mbp, st') =>
          (st', [ClientMsg.breakpointEvent "removed" mbp.id false none],
           some "breakpoint deleted")
        | (none, st') => (st', [], none)
      | none =>
        if containsSeq "progress".data expression.data then
          if st.reportProgress then (st, [], some "progress started")
          else
            (st, [],
             some "frontend doesn\x27t support progress (capability \x27supportsProgressReporting\x27 not set)")
        else (st, [], none)
  else (st, [], none)

/-- `MockDebugSession.evaluateRequest`: the `repl` arm falls through to
the default arm, which always produces a runtime variable for a
non-`$`-prefixed expression; the response body therefore echoes that
variable whenever `rv` is set, and only otherwise uses the reply. -/
def evaluateRequest (st : SessionState) (context : Option String) (expression : String) :
    SessionState × List ClientMsg × EvalBody :=
  let (st1, events, reply) := evalReplStep st context expression
  if startsDollar expression then
    match getLocalVariable st1.locals ⟨expression.data.drop 1⟩ with
    | some rv =>
      let (h', rv', dv) := convertFromRuntime st1.valuesInHex st1.handles rv
      ({ st1 with handles := h', locals := replaceLocal st1.locals rv.name rv' }, events,
       { result := dv.value, type := some dv.type,
         variablesReference := dv.variablesReference, lazyHint := dv.lazyHint })
    | none =>
      (st1, events,
       { result := reply.getD (defaultEvalText context expression), type := none,
         variablesReference := 0, lazyHint := false })
  else
    let rv := RVar.mk "eval" (convertToRuntime expression) none none
    let (h', _rv', dv) := convertFromRuntime st1.valuesInHex st1.handles rv
    ({ st1 with handles := h' }, events,
     { result := dv.value, type := some dv.type,
       variablesReference := dv.variablesReference, lazyHint := dv.lazyHint })

/-! ### Claim-side vocabulary and concrete fixtures -/

/-- The backend event names the relay recognizes and proxies. -/
def recognizedEventNames : List String := ["terminated", "exited", "stopped"]

/-- The backend response commands the relay recognizes and proxies. -/
def recognizedResponseCommands : List String :=
  ["launch", "threads", "stackTrace", "scopes", "variables",
   "setBreakpoints", "continue", "next", "stepIn", "stepOut"]

/-- A backend message the relay forwards: a recognized event or a
recognized response. -/
def recognizedBackendMessage (j : JVal) : Prop :=
  (j.getStr "type" = some "event" ∧
    ∃ e ∈ recognizedEventNames, j.getStr "event" = some e) ∨
  (j.getStr "type" = some "response" ∧
    ∃ c ∈ recognizedResponseCommands, j.getStr "command" = some c)

/-- The proxied (backend-originated) payloads within a batch of client
messages. -/
def proxiedPayloads : List ClientMsg → List JVal
  | [] => []
  | .proxiedEvent j :: rest => j :: proxiedPayloads rest
  | .proxiedResponse j :: rest => j :: proxiedPayloads rest
  | _ :: rest => proxiedPayloads rest

/-- A backend line the relay drops harmlessly: it parses as a JSON
object whose `type` property is missing or is not one of the recognized
discriminators.  (Any other line is dangerous: unparseable input throws
a `SyntaxError`, a parsed `null` throws a `TypeError` at the `type`
read, and non-object values are skipped only because property reads on
primitives do not throw.) -/
def lineSkippable (l : List Char) : Bool :=
  match jsonParse ⟨l⟩ with
  | .ok (JVal.obj fields) =>
    match lookupKey fields "type" with
    | some (JVal.str s) => decide (s ≠ "event" ∧ s ≠ "response")
    | some _ => true
    | none => true
  | _ => false

/-- A fresh session as the claims' scenarios start it. -/
def demoState : SessionState :=
  { valuesInHex := false, useInvalidatedEvent := false, reportProgress := false,
    clientLinesStartAt1 := true, handles := Handles.empty, sourceFile := "main.ring",
    locals := [], breakpoints := [], nextBpId := 1 }

/-- A variable with an attached four-byte memory buffer, registered under
handle 1000. -/
def memVar : RVar := RVar.mk "buf" (.str "data") (some [10, 20, 30, 40]) (some 1000)

/-- A session whose handle table has `memVar` under handle 1000. -/
def memState : SessionState :=
  { demoState with handles := ⟨1001, [(1000, HandleVal.var memVar)]⟩ }

/-- The scenario message of the spec: a `threads` response arriving from
the backend with its own sequence number. -/
def threadsScenario : JVal :=
  JVal.obj [("seq", .num 42), ("type", .str "response"), ("command", .str "threads"),
            ("body", .obj [("threads", .arr [.obj [("id", .num 1), ("name", .str "main")]])])]

/-! ### Lemmas about property update and proxied payloads -/

theorem lookupKey_setKey_self (fs : List (String × JVal)) (k : String) (v : JVal) :
    lookupKey (setKey fs k v) k = some v := by
  induction fs with
  | nil => simp [setKey, lookupKey]
  | cons p rest ih =>
    obtain ⟨k', w⟩ := p
    by_cases h : k' = k
    · simp [setKey, lookupKey, h]
    · simp [setKey, lookupKey, h, ih]

theorem lookupKey_setKey_ne (fs : List (String × JVal)) (k k' : String) (v : JVal)
    (h : k' ≠ k) : lookupKey (setKey fs k v) k' = lookupKey fs k' := by
  induction fs with
  | nil =>
    simp only [setKey, lookupKey]
    rw [if_neg fun hh => h hh.symm]
  | cons p rest ih =>
    obtain ⟨k0, w⟩ := p
    simp only [setKey]
    by_cases h0 : k0 = k
    · subst h0
      rw [if_pos rfl]
      simp only [lookupKey]
      rw [if_neg fun hh => h hh.symm, if_neg fun hh => h hh.symm]
    · rw [if_neg h0]
      simp only [lookupKey]
      by_cases h1 : k0 = k'
      · rw [if_pos h1, if_pos h1]
      · rw [if_neg h1, if_neg h1, ih]

theorem getField_setSeq_obj (fs : List (String × JVal)) :
    ((JVal.obj fs).setField "seq" (JVal.num 0)).getField "seq" = some (JVal.num 0) := by
  simp [JVal.setField, JVal.getField, lookupKey_setKey_self]

theorem getField_setSeq_body (j : JVal) :
    (j.setField "seq" (JVal.num 0)).getField "body" = j.getField "body" := by
  cases j <;> simp [JVal.setField, JVal.getField]
  exact lookupKey_setKey_ne _ _ _ _ (by decide)

theorem obj_of_getStr {j : JVal} {k s : String} (h : j.getStr k = some s) :
    ∃ fs, j = JVal.obj fs := by
  cases j <;> simp_all [JVal.getStr, JVal.getField]

theorem proxiedPayloads_append (xs ys : List ClientMsg) :
    proxiedPayloads (xs ++ ys) = proxiedPayloads xs ++ proxiedPayloads ys := by
  induction xs with
  | nil => simp [proxiedPayloads]
  | cons m rest ih => cases m <;> simp [proxiedPayloads, ih]

theorem getStr_obj {fs : List (String × JVal)} {k s : String} :
    (JVal.obj fs).getStr k = some s ↔ lookupKey fs k = some (JVal.str s) := by
  unfold JVal.getStr JVal.getField
  cases h : lookupKey fs k with
  | none => simp [h]
  | some v => cases v <;> simp [h]

/-- Whatever `event.body.exitCode` does — throw or not — the `exited` arm
has already proxied exactly the seq-rewritten message. -/
theorem exitedArm_payloads (j : JVal) :
    proxiedPayloads (exitedArm j).1 = [j.setField "seq" (JVal.num 0)] := by
  unfold exitedArm
  cases h : jsPropReadOpt (j.getField "body") "exitCode" with
  | error e =>
    simp only [h]
    simp [proxiedPayloads]
  | ok ec =>
    simp only [h]
    simp [proxiedPayloads, proxiedPayloads_append, apply_ite proxiedPayloads]

/-- Any payload drawn from the event arm of the dispatch chain is the
seq-rewritten message (conditions abstracted so the case split is cheap;
the exited branch is abstracted by its delivered-messages list). -/
theorem mem_eventChain {c1 c2 c3 : Prop} [Decidable c1] [Decidable c2] [Decidable c3]
    {x p : JVal} {arm : List ClientMsg × Option String}
    (h2 : proxiedPayloads arm.1 = [x])
    (hp : p ∈ proxiedPayloads
      ((if c1 then (([ClientMsg.proxiedEvent x], none) : List ClientMsg × Option String)
        else if c2 then arm
        else if c3 then ([ClientMsg.proxiedEvent x], none)
        else ([], none))).1) : p = x := by
  split_ifs at hp
  · simp [proxiedPayloads] at hp
    exact hp
  · rw [h2] at hp
    simpa using hp
  · simp [proxiedPayloads] at hp
    exact hp
  · simp [proxiedPayloads] at hp

set_option maxHeartbeats 2000000 in
/-- Any payload drawn from the response arm of the dispatch chain is the
seq-rewritten message. -/
theorem mem_responseChain {c1 c2 c3 c4 c5 c6 c7 c8 c9 c10 : Prop}
    [Decidable c1] [Decidable c2] [Decidable c3] [Decidable c4] [Decidable c5]
    [Decidable c6] [Decidable c7] [Decidable c8] [Decidable c9] [Decidable c10]
    {x p : JVal}
    (hp : p ∈ proxiedPayloads
      ((if c1 then (([ClientMsg.proxiedResponse x], none) : List ClientMsg × Option String)
        else if c2 then ([ClientMsg.proxiedResponse x], none)
        else if c3 then ([ClientMsg.proxiedResponse x], none)
        else if c4 then ([ClientMsg.proxiedResponse x], none)
        else if c5 then ([ClientMsg.proxiedResponse x], none)
        else if c6 then ([ClientMsg.proxiedResponse x], none)
        else if c7 then ([ClientMsg.proxiedResponse x], none)
        else if c8 then ([ClientMsg.proxiedResponse x], none)
        else if c9 then ([ClientMsg.proxiedResponse x], none)
        else if c10 then ([ClientMsg.proxiedResponse x], none)
        else ([], none))).1) : p = x := by
  split_ifs at hp <;> simp [proxiedPayloads] at hp <;> exact hp

set_option maxHeartbeats 1000000 in
/-- C1.  Every message the relay proxies from the backend to the client —
any recognized event (`terminated`/`exited`/`stopped`) and any recognized
response command (`launch`, `threads`, `stackTrace`, `scopes`,
`variables`, `setBreakpoints`, `continue`, `next`, `stepIn`, `stepOut`) —
is forwarded with its `seq` field overwritten to 0 and its `body`
unchanged, and no proxied message ever carries a non-zero
(backend-originated) sequence number.  This holds even when a later read
in the same arm throws (body-less `exited`), since the proxied send
precedes the throwing read. -/
theorem forwarded_seq_normalized (j : JVal) :
    (∀ p ∈ proxiedPayloads (handleOneParsed j).1,
      p.getField "seq" = some (JVal.num 0)) ∧
    (recognizedBackendMessage j →
      proxiedPayloads (handleOneParsed j).1 = [j.setField "seq" (JVal.num 0)] ∧
      (j.setField "seq" (JVal.num 0)).getField "body" = j.getField "body") := by
  constructor
  · intro p hp
    cases j with
    | null => simp [handleOneParsed, jsPropRead, proxiedPayloads] at hp
    | bool b => simp [handleOneParsed, jsPropRead, proxiedPayloads] at hp
    | num q => simp [handleOneParsed, jsPropRead, proxiedPayloads] at hp
    | str s => simp [handleOneParsed, jsPropRead, proxiedPayloads] at hp
    | arr es => simp [handleOneParsed, jsPropRead, proxiedPayloads] at hp
    | obj fs =>
      unfold handleOneParsed at hp
      simp only [jsPropRead] at hp
      cases hty : lookupKey fs "type" with
      | none =>
        simp only [hty] at hp
        simp [proxiedPayloads] at hp
      | some tv =>
        cases tv with
        | str s =>
          simp only [hty] at hp
          by_cases hse : s = "event"
          · subst hse
            rw [if_pos rfl] at hp
            rw [mem_eventChain (exitedArm_payloads _) hp]
            exact getField_setSeq_obj fs
          · rw [if_neg hse] at hp
            by_cases hsr : s = "response"
            · subst hsr
              rw [if_pos rfl] at hp
              rw [mem_responseChain hp]
              exact getField_setSeq_obj fs
            · rw [if_neg hsr] at hp
              simp [proxiedPayloads] at hp
        | null =>
          simp only [hty] at hp
          simp [proxiedPayloads] at hp
        | bool b =>
          simp only [hty] at hp
          simp [proxiedPayloads] at hp
        | num q =>
          simp only [hty] at hp
          simp [proxiedPayloads] at hp
        | arr es =>
          simp only [hty] at hp
          simp [proxiedPayloads] at hp
        | obj f2 =>
          simp only [hty] at hp
          simp [proxiedPayloads] at hp
  · intro h
    refine ⟨?_, getField_setSeq_body j⟩
    rcases h with ⟨ht, e, he, hev⟩ | ⟨ht, c, hc, hcmd⟩
    · obtain ⟨fs, rfl⟩ := obj_of_getStr ht
      have hty : lookupKey fs "type" = some (JVal.str "event") := getStr_obj.mp ht
      simp only [recognizedEventNames, List.mem_cons, List.not_mem_nil, or_false] at he
      rcases he with rfl | rfl | rfl <;>
        simp [handleOneParsed, jsPropRead, hty, hev, proxiedPayloads,
          exitedArm_payloads]
    · obtain ⟨fs, rfl⟩ := obj_of_getStr ht
      have hty : lookupKey fs "type" = some (JVal.str "response") := getStr_obj.mp ht
      simp only [recognizedResponseCommands, List.mem_cons, List.not_mem_nil, or_false] at hc
      rcases hc with rfl | rfl | rfl | rfl | rfl | rfl | rfl | rfl | rfl | rfl <;>
        simp [handleOneParsed, jsPropRead, hty, hcmd, proxiedPayloads]

/-- Witness for C1 at the spec's scenario message: a backend `threads`
response with `seq` 42 is recognized, forwarded once with `seq` 0, and
its body survives unchanged. -/
theorem forwarded_seq_normalized_witness :
    recognizedBackendMessage threadsScenario ∧
    proxiedPayloads (handleOneParsed threadsScenario).1 =
      [threadsScenario.setField "seq" (JVal.num 0)] ∧
    (threadsScenario.setField "seq" (JVal.num 0)).getField "body" =
      threadsScenario.getField "body" :=
  ⟨Or.inr ⟨rfl, "threads", by decide, rfl⟩,
   (forwarded_seq_normalized threadsScenario).2
     (Or.inr ⟨rfl, "threads", by decide, rfl⟩)⟩

/-! ### C2: malformed backend chunks -/

theorem skippable_line_no_effect (l : List Char) (h : lineSkippable l = true) :
    handleRingRdbDapOneMessage ⟨l⟩ = ([], none) := by
  unfold lineSkippable at h
  cases hj : jsonParse ⟨l⟩ with
  | error e =>
    rw [hj] at h
    exact Bool.noConfusion h
  | ok v =>
    rw [hj] at h
    cases v with
    | null => exact Bool.noConfusion h
    | bool b => exact Bool.noConfusion h
    | num q => exact Bool.noConfusion h
    | str s => exact Bool.noConfusion h
    | arr es => exact Bool.noConfusion h
    | obj fields =>
      have h1 : (match lookupKey fields "type" with
          | some (JVal.str s) => decide (s ≠ "event" ∧ s ≠ "response")
          | some _ => true
          | none => true) = true := h
      cases hty : lookupKey fields "type" with
      | none => simp [handleRingRdbDapOneMessage, hj, handleOneParsed, jsPropRead, hty]
      | some tv =>
        rw [hty] at h1
        cases tv with
        | str s =>
          have hs : s ≠ "event" ∧ s ≠ "response" := of_decide_eq_true h1
          simp [handleRingRdbDapOneMessage, hj, handleOneParsed, jsPropRead, hty,
            hs.1, hs.2]
        | null => simp [handleRingRdbDapOneMessage, hj, handleOneParsed, jsPropRead, hty]
        | bool b => simp [handleRingRdbDapOneMessage, hj, handleOneParsed, jsPropRead, hty]
        | num q => simp [handleRingRdbDapOneMessage, hj, handleOneParsed, jsPropRead, hty]
        | arr es => simp [handleRingRdbDapOneMessage, hj, handleOneParsed, jsPropRead, hty]
        | obj f2 => simp [handleRingRdbDapOneMessage, hj, handleOneParsed, jsPropRead, hty]

theorem handleLines_skips (ls : List (List Char))
    (h : ∀ l ∈ ls, l ≠ [] → lineSkippable l = true) :
    handleLines ls = ([], none) := by
  induction ls with
  | nil => rfl
  | cons l rest ih =>
    unfold handleLines
    have ihr := ih fun l2 hl2 => h l2 (List.mem_cons_of_mem _ hl2)
    by_cases hl : l.length > 0
    · rw [if_pos hl]
      have hne : l ≠ [] := by
        intro he
        subst he
        simp at hl
      rw [skippable_line_no_effect l (h l (List.mem_cons_self _ _) hne)]
      simp [ihr]
    · rw [if_neg hl]
      exact ihr

/-- C2 (amended).  `handleRingRdbDapMessage` splits a backend stderr
chunk on line feeds and hands every non-empty line to the one-message
handler; a line that parses as a JSON object whose `type` discriminator
is missing or unrecognized is skipped without effect and without
exception (and a whole chunk of such lines is fully consumed).  But
malformed input is NOT caught — the handler has no try/catch: an
unparseable line, a line parsing to JSON `null` (the `type` read throws
a TypeError), and an `exited` event without a `body` (the `exitCode`
read throws after the proxied event was already sent) all let the
exception escape the message handler; see the counterexample. -/
theorem malformed_line_handling :
    (∀ data : String,
      (∀ l ∈ splitLines data.data, l ≠ [] → lineSkippable l = true) →
      handleRingRdbDapMessage data = ([], none)) ∧
    (∀ fields : List (String × JVal),
      (JVal.obj fields).getStr "type" ≠ some "event" →
      (JVal.obj fields).getStr "type" ≠ some "response" →
      handleOneParsed (JVal.obj fields) = ([], none)) := by
  constructor
  · intro data h
    exact handleLines_skips _ h
  · intro fields h1 h2
    cases hty : lookupKey fields "type" with
    | none => simp [handleOneParsed, jsPropRead, hty]
    | some tv =>
      cases tv with
      | str s =>
        have hs1 : s ≠ "event" := fun he => h1 (getStr_obj.mpr (he ▸ hty))
        have hs2 : s ≠ "response" := fun he => h2 (getStr_obj.mpr (he ▸ hty))
        simp [handleOneParsed, jsPropRead, hty, hs1, hs2]
      | null => simp [handleOneParsed, jsPropRead, hty]
      | bool b => simp [handleOneParsed, jsPropRead, hty]
      | num q => simp [handleOneParsed, jsPropRead, hty]
      | arr es => simp [handleOneParsed, jsPropRead, hty]
      | obj f2 => simp [handleOneParsed, jsPropRead, hty]

/-- Witness for C2 (amended): a chunk holding one type-less JSON object
line is fully consumed without effect, and the same holds of the parsed
object itself. -/
theorem malformed_line_handling_witness :
    handleRingRdbDapMessage "\x7b\"a\":1\x7d\n" = ([], none) ∧
    handleOneParsed (JVal.obj [("a", JVal.num 1)]) = ([], none) :=
  ⟨malformed_line_handling.1 _ (by decide),
   malformed_line_handling.2 _ (by decide) (by decide)⟩

/-- C2 (counterexample).  The claim "a line that is not parseable as JSON
(or lacks a valid type discriminator) is logged and skipped without
raising an exception out of the message handler" is false three times
over, since `handleRingRdbDapOneMessage` has no try/catch: on the chunk
`"oops"` the `JSON.parse` `SyntaxError` escapes; on the chunk `"null"`
(well-formed JSON without a discriminator) the `ringMessage.type` read
throws a `TypeError` that escapes; and on an `exited` event without a
`body` the `event.body.exitCode` read throws a `TypeError` that escapes
— after the proxied event (seq 0) was already delivered. -/
theorem malformed_line_crashes :
    (handleRingRdbDapMessage "oops").2 = some "Unexpected token in JSON" ∧
    (handleRingRdbDapMessage "null").2.isSome = true ∧
    (handleRingRdbDapMessage
      "\x7b\"type\":\"event\",\"event\":\"exited\"\x7d").2.isSome = true ∧
    proxiedPayloads (handleRingRdbDapMessage
        "\x7b\"type\":\"event\",\"event\":\"exited\"\x7d").1 =
      [JVal.obj [("type", JVal.str "event"), ("event", JVal.str "exited"),
        ("seq", JVal.num 0)]] :=
  ⟨by decide, by decide, by decide, rfl⟩

/-! ### C3: launch gating -/

/-- C3.  `launchRequest` (and `attachRequest`, which simply delegates)
waits on the configuration-done subject with a timeout of exactly 10000
milliseconds and then — on either wait outcome, signalled or timed out —
writes the proxied launch request (`type` `request`, `seq` equal to the
response's reserved request sequence, command `launch`, the client's
arguments) to the backend's stdin and notifies the launch-done subject:
the launch is never blocked indefinitely. -/
theorem launch_proceeds_after_wait (requestSeq : Int) (arguments : JVal) :
    launchRequest requestSeq arguments WaitOutcome.signalled =
      launchRequest requestSeq arguments WaitOutcome.timedOut ∧
    (∀ w, (launchRequest requestSeq arguments w).sentToBackend =
        [proxiedLaunchMessage requestSeq arguments] ∧
      (launchRequest requestSeq arguments w).launchDoneNotified = true ∧
      attachRequest requestSeq arguments w = launchRequest requestSeq arguments w) ∧
    (proxiedLaunchMessage requestSeq arguments).getField "type" =
      some (JVal.str "request") ∧
    (proxiedLaunchMessage requestSeq arguments).getField "seq" =
      some (JVal.num (requestSeq : Rat)) ∧
    (proxiedLaunchMessage requestSeq arguments).getField "command" =
      some (JVal.str "launch") ∧
    (proxiedLaunchMessage requestSeq arguments).getField "arguments" = some arguments ∧
    launchTimeoutMs = 10000 :=
  ⟨rfl, fun _ => ⟨rfl, rfl, rfl⟩, rfl, rfl, rfl, rfl, rfl⟩

/-! ### C4: terminate signals -/

/-- C4 (counterexample).  The claim "the client sending a disconnect
request results in exactly one terminate signal being delivered" is
false: `disconnectRequest` only logs — it delivers no terminate signal
(indeed no message at all, not even the response). -/
theorem disconnect_no_terminate :
    countTerminate disconnectRequestEmits = 0 ∧ disconnectRequestEmits = [] :=
  ⟨rfl, rfl⟩

/-- C4 (amended).  The backend process exiting delivers exactly one
terminate signal to the client, preceded by a console-level output event
for exit code zero and a stderr-level output event for any other exit
status; the disconnect path, by contrast, emits nothing. -/
theorem backend_exit_terminate (code : Option Int) :
    countTerminate (onRdbProcessClose code) = 1 ∧
    onRdbProcessClose code =
      [ClientMsg.outputEvent (if code = some 0 then "console" else "stderr")
         ("ring-rdb process exited with code " ++ renderExitCode code ++ "\n"),
       ClientMsg.localTerminated] ∧
    disconnectRequestEmits = [] := by
  by_cases h : code = some 0 <;>
    simp [onRdbProcessClose, countTerminate, h, disconnectRequestEmits]

/-! ### C5: setExpression error paths -/

/-- C5.  `setExpressionRequest` on a `$`-prefixed expression whose
variable does not exist answers (without crashing — the handler is a
total function into `ReqOut`) with the structured error id 1002 and the
template `variable '{lexpr}' not found` instantiated with the expression
(which names the variable); a non-`$` expression gets the structured
error id 1003, `'{lexpr}' not an assignable expression`. -/
theorem setExpression_errors (st : SessionState) (expression value : String) :
    (startsDollar expression = true →
      getLocalVariable st.locals ⟨expression.data.drop 1⟩ = none →
      setExpressionRequest st expression value =
        (st, ReqOut.errorResp 1002 "variable \x27\x7blexpr\x7d\x27 not found"
          expression true)) ∧
    (startsDollar expression = false →
      setExpressionRequest st expression value =
        (st, ReqOut.errorResp 1003 "\x27\x7blexpr\x7d\x27 not an assignable expression"
          expression true)) := by
  constructor
  · intro hd hn
    rw [List.drop_one] at hn
    simp [setExpressionRequest, hd, hn]
  · intro hd
    simp [setExpressionRequest, hd]

/-- Witness for C5: `$counter` with no variable `counter` yields the 1002
error naming the variable; `1+2` yields the 1003 error. -/
theorem setExpression_errors_witness :
    setExpressionRequest demoState "$counter" "1" =
      (demoState, ReqOut.errorResp 1002 "variable \x27\x7blexpr\x7d\x27 not found"
        "$counter" true) ∧
    setExpressionRequest demoState "1+2" "1" =
      (demoState, ReqOut.errorResp 1003 "\x27\x7blexpr\x7d\x27 not an assignable expression"
        "1+2" true) :=
  ⟨(setExpression_errors demoState "$counter" "1").1 rfl rfl,
   (setExpression_errors demoState "1+2" "1").2 rfl⟩

/-! ### C7: the string-to-runtime-value coercion -/

theorem dropWhile_dropWhile (p : Char → Bool) (l : List Char) :
    (l.dropWhile p).dropWhile p = l.dropWhile p := by
  induction l with
  | nil => rfl
  | cons a t ih =>
    cases hpa : p a with
    | true => simpa [List.dropWhile_cons, hpa] using ih
    | false => simp [List.dropWhile_cons, hpa]

theorem head?_dropWhile_false (p : Char → Bool) (l : List Char) :
    ∀ x ∈ (l.dropWhile p).head?, p x = false := by
  induction l with
  | nil => simp
  | cons a t ih =>
    cases hpa : p a with
    | true => simpa [List.dropWhile_cons, hpa] using ih
    | false => simp [List.dropWhile_cons, hpa]

theorem dropWhile_eq_self_of_head (p : Char → Bool) (L : List Char)
    (h : ∀ x ∈ L.head?, p x = false) : L.dropWhile p = L := by
  cases L with
  | nil => rfl
  | cons a t =>
    have := h a (by simp)
    simp [List.dropWhile_cons, this]

theorem getLast?_of_suffix {Y Z : List Char} (h : Y <:+ Z) (hne : Y ≠ []) :
    Y.getLast? = Z.getLast? := by
  obtain ⟨pre, rfl⟩ := h
  exact (List.getLast?_append_of_ne_nil pre hne).symm

theorem jsTrim_idem (s : String) : jsTrim (jsTrim s) = jsTrim s := by
  unfold jsTrim
  have step1 :
      ((s.data.dropWhile jsWhitespace).reverse.dropWhile jsWhitespace).reverse.dropWhile
          jsWhitespace =
        ((s.data.dropWhile jsWhitespace).reverse.dropWhile jsWhitespace).reverse := by
    apply dropWhile_eq_self_of_head
    intro x hx
    rw [List.head?_reverse] at hx
    have hBne : (s.data.dropWhile jsWhitespace).reverse.dropWhile jsWhitespace ≠ [] := by
      intro he
      rw [he] at hx
      simp at hx
    rw [getLast?_of_suffix (List.dropWhile_suffix jsWhitespace) hBne,
      List.getLast?_reverse] at hx
    exact head?_dropWhile_false jsWhitespace s.data x hx
  rw [show ((⟨((s.data.dropWhile jsWhitespace).reverse.dropWhile jsWhitespace).reverse⟩ :
      String).data) = ((s.data.dropWhile jsWhitespace).reverse.dropWhile jsWhitespace).reverse
      from rfl, step1, List.reverse_reverse, dropWhile_dropWhile]

theorem inner_take_eq_dropLast (l : List Char) :
    (l.drop 1).take (l.length - 2) = (l.drop 1).dropLast := by
  rw [List.dropLast_eq_take, List.length_drop]
  congr 1

/-- C7.  `convertToRuntime` is a pure function of its trimmed input and
agrees exactly with the spec's tagged parse function: literal
`true`/`false` first, then the quoted-string branch (first and last
characters removed), then the parses-as-number branch, else the raw
trimmed string. -/
theorem coercion_matches_spec :
    (∀ s, convertToRuntime s = specCoerce s) ∧
    (∀ s, convertToRuntime (jsTrim s) = convertToRuntime s) := by
  have key : ∀ s, convertToRuntime s = specCoerce s := by
    intro s
    simp only [convertToRuntime, specCoerce, jsSubstrInner]
    split_ifs <;> try rfl
    exact congrArg RVarVal.str (congrArg String.mk (inner_take_eq_dropLast _))
  refine ⟨key, fun s => ?_⟩
  rw [key, key]
  simp only [specCoerce]
  rw [jsTrim_idem]

/-! ### C8: toggleFormatting -/

/-- C8.  `toggleFormatting` flips the hexadecimal display flag each time,
so two invocations restore `formatNumber` to its original rendering for
every number; and when the client declared `supportsInvalidatedEvent`,
each toggle also sends an invalidated event for the variables area. -/
theorem toggleFormatting_pair (st : SessionState) (x : JsNum) :
    ((customRequest "toggleFormatting" st).1.valuesInHex = !st.valuesInHex) ∧
    ((customRequest "toggleFormatting"
        (customRequest "toggleFormatting" st).1).1.valuesInHex = st.valuesInHex) ∧
    (formatNumber (customRequest "toggleFormatting"
        (customRequest "toggleFormatting" st).1).1.valuesInHex x =
      formatNumber st.valuesInHex x) ∧
    (st.useInvalidatedEvent = true →
      ClientMsg.invalidatedEvent ["variables"] ∈
        (customRequest "toggleFormatting" st).2.1) := by
  refine ⟨by simp [customRequest], by simp [customRequest], by simp [customRequest], ?_⟩
  intro h
  simp [customRequest, h]

/-- Witness for C8: with the invalidated capability declared, a double
toggle restores the decimal rendering of 255 and each toggle emits the
invalidated event. -/
theorem toggleFormatting_pair_witness :
    formatNumber (customRequest "toggleFormatting" (customRequest "toggleFormatting"
        { demoState with useInvalidatedEvent := true }).1).1.valuesInHex (JsNum.fin 255) =
      formatNumber ({ demoState with useInvalidatedEvent := true} :
        SessionState).valuesInHex (JsNum.fin 255) ∧
    ClientMsg.invalidatedEvent ["variables"] ∈
      (customRequest "toggleFormatting" { demoState with useInvalidatedEvent := true }).2.1 :=
  ⟨(toggleFormatting_pair { demoState with useInvalidatedEvent := true } (JsNum.fin 255)).2.2.1,
   (toggleFormatting_pair { demoState with useInvalidatedEvent := true } (JsNum.fin 255)).2.2.2
     rfl⟩

/-! ### C9: readMemory -/

/-- C9.  When the memory reference does not resolve to a variable with an
attached buffer, `readMemoryRequest` answers the placeholder success body
(empty data, `unreadableBytes = count`); when it does resolve, the
returned data is the buffer segment from `min(offset, length)` to
`min(offset + count, length)` and `unreadableBytes` is `count` minus the
number of bytes returned. -/
theorem readMemory_clamped (st : SessionState) (offset count ref : Nat) :
    (memoryOf st ref = none →
      readMemoryRequest st offset count ref =
        { address := toString offset, data := [], unreadableBytes := count }) ∧
    (∀ mem, memoryOf st ref = some mem →
      readMemoryRequest st offset count ref =
        { address := toString offset,
          data := (mem.drop (min offset mem.length)).take
            (min (offset + count) mem.length - min offset mem.length),
          unreadableBytes := count - ((mem.drop (min offset mem.length)).take
            (min (offset + count) mem.length - min offset mem.length)).length }) := by
  constructor
  · intro h
    cases hh : st.handles.get ref with
    | none => simp [readMemoryRequest, hh]
    | some hv =>
      cases hv with
      | locals => simp [readMemoryRequest, hh]
      | globals => simp [readMemoryRequest, hh]
      | var rv =>
        simp only [memoryOf, hh] at h
        simp [readMemoryRequest, hh, h]
  · intro mem h
    cases hh : st.handles.get ref with
    | none => simp [memoryOf, hh] at h
    | some hv =>
      cases hv with
      | locals => simp [memoryOf, hh] at h
      | globals => simp [memoryOf, hh] at h
      | var rv =>
        simp only [memoryOf, hh] at h
        simp [readMemoryRequest, hh, h]

/-- Witness for C9: reading 2 bytes at offset 1 of the 4-byte buffer
under handle 1000 returns bytes [20, 30] with nothing unreadable; an
unresolvable reference (7) returns the placeholder body. -/
theorem readMemory_clamped_witness :
    readMemoryRequest memState 1 2 1000 =
      { address := "1", data := [20, 30], unreadableBytes := 0 } ∧
    readMemoryRequest memState 1 2 7 =
      { address := "1", data := [], unreadableBytes := 2 } := by
  constructor
  · rw [(readMemory_clamped memState 1 2 1000).2 [10, 20, 30, 40] rfl]
    rfl
  · rw [(readMemory_clamped memState 1 2 7).1 rfl]
    rfl

/-! ### C10: setVariable never errors -/

/-- C10.  When the variables reference does not resolve to a container
holding a variable of the given name, `setVariableRequest` leaves the
session state untouched, emits no event, and answers a plain success
response with no body; and on every input its response is a success —
never a structured error (unlike `setExpressionRequest`). -/
theorem setVariable_silent_no_error (st : SessionState) (ref : Nat) (nm value : String) :
    (resolveSetVariable st ref nm = none →
      setVariableRequest st ref nm value = (st, [], ReqOut.success none)) ∧
    (∃ b, (setVariableRequest st ref nm value).2.2 = ReqOut.success b) := by
  constructor
  · intro h
    cases hh : st.handles.get ref with
    | none => simp [setVariableRequest, hh]
    | some hv =>
      cases hv with
      | locals =>
        simp only [resolveSetVariable, hh] at h
        simp [setVariableRequest, hh, h]
      | globals => simp [setVariableRequest, hh]
      | var c =>
        simp only [resolveSetVariable, hh] at h
        cases hc : c.value with
        | arr children =>
          rw [hc] at h
          have h2 : children.findByName nm = none := h
          simp [setVariableRequest, hh, hc, h2]
        | bool b => simp [setVariableRequest, hh, hc]
        | num n => simp [setVariableRequest, hh, hc]
        | str sv => simp [setVariableRequest, hh, hc]
  · cases hh : st.handles.get ref with
    | none => exact ⟨none, by simp [setVariableRequest, hh]⟩
    | some hv =>
      cases hv with
      | locals =>
        cases hg : getLocalVariable st.locals nm with
        | none => exact ⟨none, by simp [setVariableRequest, hh, hg]⟩
        | some rv =>
          exact ⟨some (convertFromRuntime st.valuesInHex st.handles
            (rv.withValue (convertToRuntime value))).2.2, by simp [setVariableRequest, hh, hg]⟩
      | globals => exact ⟨none, by simp [setVariableRequest, hh]⟩
      | var c =>
        cases hc : c.value with
        | arr children =>
          cases hg : children.findByName nm with
          | none => exact ⟨none, by simp [setVariableRequest, hh, hc, hg]⟩
          | some rv =>
            exact ⟨some (convertFromRuntime st.valuesInHex st.handles
              (rv.withValue (convertToRuntime value))).2.2,
              by simp [setVariableRequest, hh, hc, hg]⟩
        | bool b => exact ⟨none, by simp [setVariableRequest, hh, hc]⟩
        | num n => exact ⟨none, by simp [setVariableRequest, hh, hc]⟩
        | str sv => exact ⟨none, by simp [setVariableRequest, hh, hc]⟩

/-- Witness for C10: an unknown reference (999) on a fresh session leaves
everything unchanged and answers a bodyless success. -/
theorem setVariable_silent_no_error_witness :
    setVariableRequest demoState 999 "x" "1" = (demoState, [], ReqOut.success none) :=
  (setVariable_silent_no_error demoState 999 "x" "1").1 rfl

/-! ### C6: evaluate `new <line>` in the repl -/

/-- C6 (counterexample).  The claim "the evaluate response's result is
the reply string `breakpoint created`" is false: for `context: "repl"`,
`expression: "new 5"` the breakpoint is created and announced (id 1,
client line 5), but the `repl` arm falls through to the default arm,
which builds an `eval` runtime variable from the expression — so the
response's result is the quoted echo `"new 5"`, not the reply. -/
theorem replNew_reply_shadowed :
    (evaluateRequest demoState (some "repl") "new 5").2.2.result = "\"new 5\"" ∧
    (evaluateRequest demoState (some "repl") "new 5").2.2.result ≠ "breakpoint created" ∧
    (evaluateRequest demoState (some "repl") "new 5").1.breakpoints =
      [⟨1, 4, false⟩] ∧
    (evaluateRequest demoState (some "repl") "new 5").2.1 =
      [ClientMsg.breakpointEvent "new" 1 false (some 5)] :=
  ⟨rfl, by decide, rfl, rfl⟩

/-- C6 (amended).  For an `evaluate` request in `repl` context whose
expression matches `new <line>` (and does not start with `$`), the relay
creates a breakpoint record at the converted line with the next fresh id,
sends the client a `new` breakpoint event carrying that id, and the
response's result is the coerced echo of the expression produced by the
fall-through default arm — not the `breakpoint created` reply. -/
theorem replNew_creates_breakpoint (st : SessionState) (expression : String)
    (ds : List Char) (hmatch : execCapture matchNewAt expression.data = some ds)
    (hnd : startsDollar expression = false) :
    (evaluateRequest st (some "repl") expression).1.breakpoints =
      st.breakpoints ++
        [⟨st.nextBpId,
          convertClientLineToDebugger st.clientLinesStartAt1 (Int.ofNat (digitsToNat ds)),
          false⟩] ∧
    (evaluateRequest st (some "repl") expression).1.nextBpId = st.nextBpId + 1 ∧
    (evaluateRequest st (some "repl") expression).2.1 =
      [ClientMsg.breakpointEvent "new" st.nextBpId false
        (some (convertDebuggerLineToClient st.clientLinesStartAt1
          (convertClientLineToDebugger st.clientLinesStartAt1
            (Int.ofNat (digitsToNat ds)))))] ∧
    (evaluateRequest st (some "repl") expression).2.2.result =
      (convertFromRuntime st.valuesInHex st.handles
        (RVar.mk "eval" (convertToRuntime expression) none none)).2.2.value := by
  refine ⟨?_, ?_, ?_, ?_⟩ <;>
    simp [evaluateRequest, evalReplStep, hmatch, hnd, setBreakPoint]

/-- Witness for C6 (amended) at the spec's scenario (`new 5` on a fresh
session): breakpoint record at debugger line 4 (client line 5) with id 1,
and the breakpoint event carries id 1. -/
theorem replNew_creates_breakpoint_witness :
    (evaluateRequest demoState (some "repl") "new 5").1.breakpoints =
      demoState.breakpoints ++
        [⟨demoState.nextBpId,
          convertClientLineToDebugger demoState.clientLinesStartAt1
            (Int.ofNat (digitsToNat ['5'])), false⟩] ∧
    (evaluateRequest demoState (some "repl") "new 5").2.1 =
      [ClientMsg.breakpointEvent "new" demoState.nextBpId false
        (some (convertDebuggerLineToClient demoState.clientLinesStartAt1
          (convertClientLineToDebugger demoState.clientLinesStartAt1
            (Int.ofNat (digitsToNat ['5'])))))] := by
  have h := replNew_creates_breakpoint demoState "new 5" ['5'] (by decide) rfl
  exact ⟨h.1, h.2.2.1⟩
